import Mathlib

/-!
Formal model of the rsyncx synchronizer (src/rsyncx/main.py).

The Python source is shallowly embedded: pure string manipulation is
translated to functions on String or on List Char (Python strings are
sequences of code points, so List Char slicing matches Python slicing
exactly); sets built with the Python set type become Finset String;
the filesystem and the remote side are modelled as explicit state
(Finset of existing file paths) threaded through the functions; remote
shell invocations are recorded as an explicit trace of operations, each
carrying the host it targets; sys.exit is modelled as an Option result
(none) or an exit flag.  Paths are represented by their string form
relative to the relevant root, with components separated by the slash
character, mirroring pathlib.
-/

/-- Marker suffix for deletions on the server: DELETED_MARKER_EXT =
".rsyncx_deleted" (main.py line 35). -/
def DELETED_MARKER_EXT : String := ".rsyncx_deleted"

/-- Python strings modelled as lists of characters, used where the source
does index arithmetic on strings (slicing in get_deletion_markers). -/
abbrev PyStr := List Char

/-- The deletion-marker suffix as a character list. -/
def markerExt : PyStr := DELETED_MARKER_EXT.data

/-- Model of safe_group_id (main.py lines 46-50): each character of the
group name is kept when it is alphanumeric or a dash or an underscore and
replaced by an underscore otherwise.  Char.isAlphanum models the Python
isalnum test on the ASCII fragment, where the two agree. -/
def safe_group_id (name : String) : String :=
  ⟨name.data.map (fun ch => if ch.isAlphanum || ch = '-' || ch = '_' then ch else '_')⟩

/-- Model of state_file_for_group (main.py lines 213-214): the snapshot
file path under the state directory, keyed by the safe group id. -/
def state_file_for_group (name : String) : String :=
  "state/" ++ safe_group_id name ++ ".json"

/-- Model of deleted_log_for_group (main.py lines 216-217): the deletion
log file path under the deleted directory, keyed by the safe group id. -/
def deleted_log_for_group (name : String) : String :=
  "deleted/" ++ safe_group_id name ++ ".json"

/-- Python str.rstrip with the slash character: removes every trailing
slash (used on remote_root in get_deletion_markers, line 303). -/
def pyRstripSlash (s : PyStr) : PyStr :=
  (s.reverse.dropWhile (fun c => c = '/')).reverse

/-- Marker path built by create_deletion_marker (main.py line 277):
the string remote_root + "/" + relative_file + DELETED_MARKER_EXT. -/
def marker_path (remote_root relative_file : PyStr) : PyStr :=
  remote_root ++ '/' :: relative_file ++ markerExt

/-- Per-line processing of get_deletion_markers (main.py lines 303-310):
strip the root (rstripped of slashes, plus a slash) from the front when it
is there, then drop the marker suffix length from the end (the Python
slice rel_marker[:-len(DELETED_MARKER_EXT)]). -/
def collect_rel (remote_root abs_marker : PyStr) : PyStr :=
  let rootSlash := pyRstripSlash remote_root ++ ['/']
  let rel_marker :=
    if rootSlash.isPrefixOf abs_marker then abs_marker.drop rootSlash.length
    else abs_marker
  rel_marker.take (rel_marker.length - markerExt.length)

/-- Helper for splitting a character list on the slash separator: acc
holds the characters of the current component in reverse. -/
def splitOnSlashAux : List Char → List Char → List (List Char)
  | [], acc => [acc.reverse]
  | c :: rest, acc =>
    if c = '/' then acc.reverse :: splitOnSlashAux rest []
    else splitOnSlashAux rest (c :: acc)

/-- Components of a relative path string, split on the slash separator,
mirroring pathlib parts for a relative path (Python split with a
one-character separator). -/
def pathParts (p : String) : List String :=
  (splitOnSlashAux p.data []).map (fun cs => (⟨cs⟩ : String))

/-- Python str.endswith, on the code points of the two strings. -/
def pyEndsWith (s t : String) : Bool := t.data.isSuffixOf s.data

/-- Python str.startswith, on the code points of the two strings. -/
def pyStartsWith (s t : String) : Bool := t.data.isPrefixOf s.data

/-- Final component of a relative path string, mirroring pathlib name. -/
def pathName (p : String) : String := (pathParts p).getLastD ""

/-- The filter applied by list_current_local_files (main.py lines 262-269)
to each regular file found under the local root: skip it when the string
_papelera occurs among the path components of the absolute path (the
components of the local root followed by the components of the relative
path), when its name ends with the deletion-marker suffix, or when its
name starts with the internal control prefix. -/
def keep_local_file (rootParts : List String) (p : String) : Bool :=
  !((rootParts ++ pathParts p).contains "_papelera")
    && !(pyEndsWith (pathName p) DELETED_MARKER_EXT)
    && !(pyStartsWith (pathName p) ".rsyncx_")

/-- Model of list_current_local_files (main.py lines 259-271): tree is the
list of relative path strings of every regular file under the local root
(rglob together with relative_to); the result keeps those passing the
filter. -/
def list_current_local_files (rootParts : List String) (tree : List String) : List String :=
  tree.filter (keep_local_file rootParts)

/-- Python sorted on a list of strings. -/
def pySorted (l : List String) : List String := l.mergeSort

/-- Parsed contents of a snapshot state file (main.py lines 230-233). -/
structure SnapshotFile where
  timestamp : String
  files : List String
deriving DecidableEq

/-- Model of write_state (main.py lines 228-237): the snapshot written for
a group holds a timestamp and the sorted list of the given set of relative
paths. -/
def write_state (ts : String) (files_snapshot : Finset String) : SnapshotFile :=
  ⟨ts, files_snapshot.sort (· ≤ ·)⟩

/-- Model of read_state followed by .get("files", []) as used by sync_push
(main.py lines 219-226 and 350): a missing or unreadable state file gives
the empty dictionary, hence the empty file list. -/
def read_state_files (st : Option SnapshotFile) : List String :=
  match st with
  | none => []
  | some s => s.files

/-- The state-level part of sync_push (main.py lines 349-357 and 381):
prev is the set of paths of the previous snapshot, cur the set of current
local files; deleted_locally is sorted(prev - cur) when prev is nonempty
and the empty list otherwise (the Python conditional expression on line
352); the new snapshot persisted at the end of push holds cur.  Returns
(deleted_locally, new snapshot). -/
def sync_push_reconcile (st : Option SnapshotFile) (ts : String)
    (rootParts : List String) (tree : List String) : List String × SnapshotFile :=
  let prev : Finset String := (read_state_files st).toFinset
  let cur : Finset String := (list_current_local_files rootParts tree).toFinset
  let deleted_locally := if prev ≠ ∅ then (prev \ cur).sort (· ≤ ·) else []
  (deleted_locally, write_state ts cur)

/-- One record of the per-group deletion log (main.py lines 249-252). -/
structure DeletedLogEntry where
  timestamp : String
  deleted : List String
deriving DecidableEq

/-- Model of append_deleted_log (main.py lines 239-257): with an empty
deleted list the function returns before touching the file (none = no
write); otherwise the parsed history receives one appended entry holding
the timestamp and the sorted deleted list, and the whole list is written
back. -/
def append_deleted_log (history : List DeletedLogEntry) (ts : String)
    (deleted_list : List String) : Option (List DeletedLogEntry) :=
  if deleted_list = [] then none
  else some (history ++ [⟨ts, pySorted deleted_list⟩])

/-- Stem and suffix of a file name, mirroring pathlib: the suffix starts
at the last dot when that dot is neither the first nor the last character
of the name, and is empty otherwise. -/
def pySplitExt (name : String) : String × String :=
  let cs := name.data
  match ((List.range cs.length).filter (fun i => cs.getD i ' ' = '.')).getLast? with
  | some i =>
      if 0 < i ∧ i < cs.length - 1 then (⟨cs.take i⟩, ⟨cs.drop i⟩)
      else (name, "")
  | none => (name, "")

/-- Destination path (relative to the local root) built by
apply_deletion_markers_locally for one moved file (main.py lines 324-330):
_papelera / parent of the relative path / stem _ timestamp suffix.  For a
single-component path the pathlib parent is the dot path, which
contributes no component. -/
def move_to_trash_dest (rel ts : String) : String :=
  let comps := pathParts rel
  let nm := comps.getLastD ""
  let se := pySplitExt nm
  String.intercalate "/" ("_papelera" :: (comps.dropLast ++ [se.1 ++ "_" ++ ts ++ se.2]))

/-- Model of apply_deletion_markers_locally (main.py lines 315-336).  The
local filesystem is the Finset of relative paths of existing regular
files outside the trash, the trash the Finset of paths (relative to the
local root) present under _papelera.  Each listed relative path whose
source exists is moved: removed from the live set, inserted into the
trash at its destination path, and counted; a missing source leaves the
state and the count unchanged.  The run timestamp ts is fixed for the
model (the source recomputes it per file; within one run it is constant
at second resolution).  Returns (live files, trash, moved count). -/
def apply_deletion_markers_locally (ts : String) (files trash : Finset String)
    (rel_files : List String) : Finset String × Finset String × Nat :=
  rel_files.foldl
    (fun st rel =>
      if rel ∈ st.1 then
        (st.1.erase rel, insert (move_to_trash_dest rel ts) st.2.1, st.2.2 + 1)
      else st)
    (files, trash, 0)

/-- Connection data of a server profile (config keys host_local, host_vpn,
port, user, passw, identity, remote).  Missing keys and the Python empty
string are both modelled as the empty string, since the source tests them
with truthiness. -/
structure ServerConf where
  host_local : String
  host_vpn : String
  port : Nat
  user : String
  passw : String
  identity : String
  remote : String
deriving DecidableEq

/-- Model of choose_reachable_host (main.py lines 176-192): when
host_local is set and the connectivity probe succeeds it is chosen; else
when host_vpn is set it is chosen with no probe; else the function calls
sys.exit(1), modelled as none.  The probe socket.create_connection is
abstracted into the predicate reachable. -/
def choose_reachable_host (reachable : String → Bool) (c : ServerConf) : Option String :=
  if c.host_local ≠ "" ∧ reachable c.host_local = true then some c.host_local
  else if c.host_vpn ≠ "" then some c.host_vpn
  else none

/-- One configured sync group together with its resolved server entry. -/
structure SyncGroup where
  grupo : String
  server : ServerConf
deriving DecidableEq

/-- Model of the group loop of main (main.py lines 526-535) for the push,
pull, run and purge commands: groups are processed in order; each group
operation starts by resolving a host through choose_reachable_host (lines
345, 424, 466), and a failed resolution executes sys.exit(1), which
terminates the whole process.  Returns the list of groups whose operation
was carried out and whether the process exited early. -/
def process_groups (reachable : String → Bool) : List SyncGroup → List SyncGroup × Bool
  | [] => ([], false)
  | g :: rest =>
    match choose_reachable_host reachable g.server with
    | none => ([], true)
    | some _ =>
      let r := process_groups reachable rest
      (g :: r.1, r.2)

/-- One remote operation run over ssh or rsync, tagged with the host it
targets. -/
inductive RemoteOp where
  | sshMkdirPapelera (host : String)
  | sshEnsureDirs (host : String)
  | sshCreateMarker (host : String) (rel : String)
  | sshListMarkers (host : String)
  | rsyncPush (host : String)
  | rsyncPullMain (host : String)
  | rsyncPullTrash (host : String)
  | sshPurgeTrash (host : String)
deriving DecidableEq

/-- The host a remote operation targets. -/
def RemoteOp.target : RemoteOp → String
  | .sshMkdirPapelera h => h
  | .sshEnsureDirs h => h
  | .sshCreateMarker h _ => h
  | .sshListMarkers h => h
  | .rsyncPush h => h
  | .rsyncPullMain h => h
  | .rsyncPullTrash h => h
  | .sshPurgeTrash h => h

/-- Host computed inside ensure_remote_papelera (main.py line 139): the
Python expression get("host_local") or get("host_vpn") takes host_local
whenever it is truthy, with no reachability probe. -/
def papelera_host (c : ServerConf) : String :=
  if c.host_local ≠ "" then c.host_local else c.host_vpn

/-- Remote operations run by ensure_remote_papelera (main.py lines
133-171): one ssh mkdir against its own recomputed host, or none at all
when both host fields are empty (the early return on line 147). -/
def ensure_remote_papelera_ops (c : ServerConf) : List RemoteOp :=
  if papelera_host c ≠ "" then [RemoteOp.sshMkdirPapelera (papelera_host c)] else []

/-- Trace of remote operations of sync_push (main.py lines 341-378), in
source order: host resolution (none on failure, since sys.exit stops
everything), ensure_remote_papelera with its own host, ensure_remote_dirs
with the chosen host, one marker creation per locally deleted path, and
the bulk rsync push, both with the chosen host. -/
def sync_push_ops (reachable : String → Bool) (c : ServerConf)
    (deleted_locally : List String) : Option (List RemoteOp) :=
  match choose_reachable_host reachable c with
  | none => none
  | some host =>
    some (ensure_remote_papelera_ops c
      ++ [RemoteOp.sshEnsureDirs host]
      ++ deleted_locally.map (RemoteOp.sshCreateMarker host)
      ++ [RemoteOp.rsyncPush host])

/-- Trace of remote operations of sync_pull (main.py lines 419-443), in
source order: host resolution, ensure_remote_papelera with its own host,
the marker listing, the main content pull and the trash mirror pull, the
last three with the chosen host. -/
def sync_pull_ops (reachable : String → Bool) (c : ServerConf) :
    Option (List RemoteOp) :=
  match choose_reachable_host reachable c with
  | none => none
  | some host =>
    some (ensure_remote_papelera_ops c
      ++ [RemoteOp.sshListMarkers host, RemoteOp.rsyncPullMain host,
          RemoteOp.rsyncPullTrash host])

/-- Observable per-group state touched by the purge command: the live and
trash file sets on both sides, the snapshot file and the deletion log. -/
structure GroupWorld where
  localLive : Finset String
  localTrash : Finset String
  remoteLive : Finset String
  remoteTrash : Finset String
  snapshot : Option SnapshotFile
  deletedLog : List DeletedLogEntry
deriving DecidableEq

/-- Model of purge_group_trash (main.py lines 459-478): the local trash
subtree is removed and recreated empty, then a host is resolved (sys.exit
on failure, after the local trash is already cleared), then the remote
trash contents are removed with find -mindepth 1.  Nothing else is read
or written; in particular the snapshot and the deletion log are not
touched.  Returns the new state and whether the process exited early. -/
def purge_group_trash (reachable : String → Bool) (c : ServerConf)
    (w : GroupWorld) : GroupWorld × Bool :=
  let w1 := { w with localTrash := (∅ : Finset String) }
  match choose_reachable_host reachable c with
  | none => (w1, true)
  | some _ => ({ w1 with remoteTrash := (∅ : Finset String) }, false)

/-- C10: the derived group identifier consists only of alphanumeric
characters, dash and underscore; the mapping is not injective: the names
a.b and a!b differ yet share the identifier a_b, hence the same snapshot
file and the same deletion-log file. -/
theorem safe_group_id_charset_and_collision :
    (∀ (name : String) (c : Char), c ∈ (safe_group_id name).data →
      (c.isAlphanum ∨ c = '-' ∨ c = '_'))
    ∧ ("a.b" : String) ≠ "a!b"
    ∧ safe_group_id "a.b" = safe_group_id "a!b"
    ∧ state_file_for_group "a.b" = state_file_for_group "a!b"
    ∧ deleted_log_for_group "a.b" = deleted_log_for_group "a!b" := by
  refine ⟨?_, by decide, by decide, by decide, by decide⟩
  intro name c hc
  simp only [safe_group_id, List.mem_map] at hc
  obtain ⟨x, -, rfl⟩ := hc
  by_cases h : (x.isAlphanum || x = '-' || x = '_') = true
  · simp only [h, if_true]
    simp only [Bool.or_eq_true, decide_eq_true_eq] at h
    tauto
  · simp only [h, if_false]
    right; right; rfl

/-- C10 witness: the charset property evaluated at the name a.b and the
character underscore. -/
theorem safe_group_id_charset_and_collision_witness :
    ('_' ∈ (safe_group_id "a.b").data) ∧ ('_'.isAlphanum ∨ '_' = '-' ∨ '_' = '_') :=
  ⟨by decide, safe_group_id_charset_and_collision.1 "a.b" '_' (by decide)⟩

/-- C7: with an empty deletion set the log file is untouched (no write);
with a nonempty deletion set exactly one record holding the timestamp and
the sorted deleted paths is appended at the end, every earlier entry kept
unchanged in place. -/
theorem append_deleted_log_append_only (history : List DeletedLogEntry)
    (ts : String) (deleted_list : List String) :
    append_deleted_log history ts [] = none
    ∧ (deleted_list ≠ [] →
        append_deleted_log history ts deleted_list
          = some (history ++ [⟨ts, pySorted deleted_list⟩])) := by
  constructor
  · rfl
  · intro h
    simp [append_deleted_log, h]

/-- C7 witness: the append equation evaluated on a one-entry history and
the deleted list b, a. -/
theorem append_deleted_log_append_only_witness :
    append_deleted_log [⟨"t0", ["a"]⟩] "t1" [] = none
    ∧ append_deleted_log [⟨"t0", ["a"]⟩] "t1" ["b", "a"]
        = some ([⟨"t0", ["a"]⟩] ++ [⟨"t1", pySorted ["b", "a"]⟩]) :=
  ⟨(append_deleted_log_append_only [⟨"t0", ["a"]⟩] "t1" ["b", "a"]).1,
   (append_deleted_log_append_only [⟨"t0", ["a"]⟩] "t1" ["b", "a"]).2 (by decide)⟩

/-- C4: push idempotence: an immediately repeated push on an unchanged
local tree, whose prior snapshot is the one persisted by the first push,
computes an empty deleted list, hence publishes no markers, and its call
to append_deleted_log does not touch the log file. -/
theorem push_idempotent (st : Option SnapshotFile) (ts1 ts2 : String)
    (rootParts tree : List String) (history : List DeletedLogEntry) :
    (sync_push_reconcile (some (sync_push_reconcile st ts1 rootParts tree).2)
        ts2 rootParts tree).1 = []
    ∧ append_deleted_log history ts2
        (sync_push_reconcile (some (sync_push_reconcile st ts1 rootParts tree).2)
          ts2 rootParts tree).1 = none := by
  have h1 : (sync_push_reconcile (some (sync_push_reconcile st ts1 rootParts tree).2)
      ts2 rootParts tree).1 = [] := by
    simp [sync_push_reconcile, write_state, read_state_files, Finset.sort_toFinset,
      Finset.sdiff_self, Finset.sort_empty]
  exact ⟨h1, by rw [h1]; rfl⟩

/-- C5: first push with no readable prior snapshot computes an empty
deleted list (so no markers and no log write) and persists a sorted
snapshot holding exactly the current local relative file paths. -/
theorem first_push_empty_deleted (ts : String) (rootParts tree : List String)
    (history : List DeletedLogEntry) :
    (sync_push_reconcile none ts rootParts tree).1 = []
    ∧ append_deleted_log history ts (sync_push_reconcile none ts rootParts tree).1 = none
    ∧ (∀ p, p ∈ ((sync_push_reconcile none ts rootParts tree).2).files ↔
        p ∈ list_current_local_files rootParts tree)
    ∧ List.Sorted (· ≤ ·) ((sync_push_reconcile none ts rootParts tree).2).files := by
  refine ⟨by simp [sync_push_reconcile, read_state_files], by simp [sync_push_reconcile,
    read_state_files, append_deleted_log], ?_, ?_⟩
  · intro p
    show p ∈ Finset.sort (· ≤ ·) (list_current_local_files rootParts tree).toFinset ↔ _
    rw [Finset.mem_sort (fun a b : String => a ≤ b), List.mem_toFinset]
  · show List.Sorted (· ≤ ·)
      (Finset.sort (fun a b : String => a ≤ b) (list_current_local_files rootParts tree).toFinset)
    exact Finset.sort_sorted _ _

/-- C1 counterexample: two groups, the first with no usable host, the
second with a reachable one; the run exits at the first group and the
second is never processed, refuting the claim that processing continues
with subsequent groups. -/
theorem host_failure_not_isolated_counterexample :
    process_groups (fun _ => true) [⟨"g1", ⟨"", "", 22, "u", "p", "", "/vol"⟩⟩,
        ⟨"g2", ⟨"192.168.1.2", "", 22, "u", "p", "", "/vol"⟩⟩] = ([], true)
    ∧ choose_reachable_host (fun _ => true) ⟨"192.168.1.2", "", 22, "u", "p", "", "/vol"⟩
        = some "192.168.1.2"
    ∧ (⟨"g2", ⟨"192.168.1.2", "", 22, "u", "p", "", "/vol"⟩⟩ : SyncGroup)
        ∉ (process_groups (fun _ => true) [⟨"g1", ⟨"", "", 22, "u", "p", "", "/vol"⟩⟩,
            ⟨"g2", ⟨"192.168.1.2", "", 22, "u", "p", "", "/vol"⟩⟩]).1 := by
  decide

/-- C1 amended: a failed host resolution for one group calls sys.exit(1),
which terminates the whole process: the failing group and every
subsequent group in the sequence are left unprocessed. -/
theorem host_failure_aborts_rest (reachable : String → Bool) (g : SyncGroup)
    (rest : List SyncGroup)
    (h : choose_reachable_host reachable g.server = none) :
    process_groups reachable (g :: rest) = ([], true) := by
  simp [process_groups, h]

/-- C1 witness: the amended statement evaluated on a concrete failing
group followed by one more group. -/
theorem host_failure_aborts_rest_witness :
    process_groups (fun _ => true) [⟨"g1", ⟨"", "", 22, "u", "p", "", "/vol"⟩⟩,
        ⟨"g2", ⟨"192.168.1.2", "", 22, "u", "p", "", "/vol"⟩⟩] = ([], true) :=
  host_failure_aborts_rest (fun _ => true) _ _ (by decide)

/-- C8: when host resolution succeeds, purge empties the local trash and
the remote trash and changes nothing else: live trees, snapshot and
deletion log come out exactly as they went in, and neither state file is
read or written. -/
theorem purge_frame_effect (reachable : String → Bool) (c : ServerConf)
    (w : GroupWorld) (h : String)
    (hh : choose_reachable_host reachable c = some h) :
    purge_group_trash reachable c w
      = ({ w with localTrash := ∅, remoteTrash := ∅ }, false)
    ∧ (purge_group_trash reachable c w).1.snapshot = w.snapshot
    ∧ (purge_group_trash reachable c w).1.deletedLog = w.deletedLog
    ∧ (purge_group_trash reachable c w).1.localLive = w.localLive
    ∧ (purge_group_trash reachable c w).1.remoteLive = w.remoteLive
    ∧ (purge_group_trash reachable c w).1.localTrash = ∅
    ∧ (purge_group_trash reachable c w).1.remoteTrash = ∅ := by
  simp [purge_group_trash, hh]

/-- C8 witness: the purge frame effect evaluated on a concrete world with
populated trashes. -/
theorem purge_frame_effect_witness :
    purge_group_trash (fun _ => true) ⟨"192.168.1.2", "", 22, "u", "p", "", "/vol"⟩
        ⟨{"a"}, {"t1"}, {"a"}, {"t2"}, none, []⟩
      = (⟨{"a"}, ∅, {"a"}, ∅, none, []⟩, false) :=
  (purge_frame_effect (fun _ => true) _ _ "192.168.1.2" (by decide)).1

/-- C2 counterexample: primary 10.0.0.1 set but unreachable, fallback
vpn.example set; the chosen host is the fallback, yet the run performs the
remote _papelera directory creation against the primary, because
ensure_remote_papelera recomputes its host as host_local or host_vpn with
no reachability probe. -/
theorem fallback_not_exclusive_counterexample :
    choose_reachable_host (fun _ => false)
        ⟨"10.0.0.1", "vpn.example", 22, "u", "pw", "", "/vol"⟩ = some "vpn.example"
    ∧ (sync_push_ops (fun _ => false)
          ⟨"10.0.0.1", "vpn.example", 22, "u", "pw", "", "/vol"⟩ ["docs/a.txt"]).getD []
        = [RemoteOp.sshMkdirPapelera "10.0.0.1",
           RemoteOp.sshEnsureDirs "vpn.example",
           RemoteOp.sshCreateMarker "vpn.example" "docs/a.txt",
           RemoteOp.rsyncPush "vpn.example"]
    ∧ RemoteOp.sshMkdirPapelera "10.0.0.1"
        ∈ (sync_push_ops (fun _ => false)
            ⟨"10.0.0.1", "vpn.example", 22, "u", "pw", "", "/vol"⟩ ["docs/a.txt"]).getD []
    ∧ (RemoteOp.sshMkdirPapelera "10.0.0.1").target = "10.0.0.1" := by
  decide

/-- C2 amended: with the primary set but unreachable and the fallback set,
every remote operation that receives the chosen host (remote directory
structure creation, marker creation, marker listing, bulk transfers)
targets the fallback, while the _papelera directory-ensure step targets
the primary, since it recomputes its own host without a probe. -/
theorem fallback_targets_except_papelera (reachable : String → Bool)
    (c : ServerConf) (deleted : List String)
    (h1 : c.host_local ≠ "") (h2 : reachable c.host_local = false)
    (h3 : c.host_vpn ≠ "") :
    choose_reachable_host reachable c = some c.host_vpn
    ∧ sync_push_ops reachable c deleted
        = some (RemoteOp.sshMkdirPapelera c.host_local
            :: RemoteOp.sshEnsureDirs c.host_vpn
            :: (deleted.map (RemoteOp.sshCreateMarker c.host_vpn)
                ++ [RemoteOp.rsyncPush c.host_vpn]))
    ∧ sync_pull_ops reachable c
        = some [RemoteOp.sshMkdirPapelera c.host_local,
            RemoteOp.sshListMarkers c.host_vpn,
            RemoteOp.rsyncPullMain c.host_vpn,
            RemoteOp.rsyncPullTrash c.host_vpn]
    ∧ (∀ op ∈ (sync_push_ops reachable c deleted).getD [],
        RemoteOp.target op = c.host_vpn ∨ op = RemoteOp.sshMkdirPapelera c.host_local)
    ∧ (∀ op ∈ (sync_pull_ops reachable c).getD [],
        RemoteOp.target op = c.host_vpn ∨ op = RemoteOp.sshMkdirPapelera c.host_local) := by
  have hch : choose_reachable_host reachable c = some c.host_vpn := by
    simp [choose_reachable_host, h1, h2, h3]
  have hpap : ensure_remote_papelera_ops c = [RemoteOp.sshMkdirPapelera c.host_local] := by
    simp [ensure_remote_papelera_ops, papelera_host, h1]
  have hpush : sync_push_ops reachable c deleted
      = some (RemoteOp.sshMkdirPapelera c.host_local
          :: RemoteOp.sshEnsureDirs c.host_vpn
          :: (deleted.map (RemoteOp.sshCreateMarker c.host_vpn)
              ++ [RemoteOp.rsyncPush c.host_vpn])) := by
    simp [sync_push_ops, hch, hpap]
  have hpull : sync_pull_ops reachable c
      = some [RemoteOp.sshMkdirPapelera c.host_local,
          RemoteOp.sshListMarkers c.host_vpn,
          RemoteOp.rsyncPullMain c.host_vpn,
          RemoteOp.rsyncPullTrash c.host_vpn] := by
    simp [sync_pull_ops, hch, hpap]
  refine ⟨hch, hpush, hpull, ?_, ?_⟩
  · intro op hop
    rw [hpush] at hop
    simp only [Option.getD_some, List.mem_cons, List.mem_append, List.mem_map,
      List.not_mem_nil, or_false] at hop
    rcases hop with rfl | rfl | ⟨r, -, rfl⟩ | rfl
    · right; rfl
    · left; rfl
    · left; rfl
    · left; rfl
  · intro op hop
    rw [hpull] at hop
    simp only [Option.getD_some, List.mem_cons, List.not_mem_nil, or_false] at hop
    rcases hop with rfl | rfl | rfl | rfl
    · right; rfl
    · left; rfl
    · left; rfl
    · left; rfl

/-- C2 witness: the amended statement evaluated at the concrete profile
with primary 10.0.0.1 down and fallback vpn.example up. -/
theorem fallback_targets_except_papelera_witness :
    choose_reachable_host (fun _ => false)
        ⟨"10.0.0.1", "vpn.example", 22, "u", "pw", "", "/vol"⟩ = some "vpn.example" :=
  (fallback_targets_except_papelera (fun _ => false)
      ⟨"10.0.0.1", "vpn.example", 22, "u", "pw", "", "/vol"⟩ ["docs/a.txt"]
      (by decide) (by decide) (by decide)).1

/-- C3: marker round trip: for a remote root not ending in a slash (the
form produced by os.path.join at every call site) and any relative path,
the per-line stripping of collect applied to the absolute marker path
built by publish returns exactly the relative path: the root-plus-slash
front strip and the suffix-length end strip invert the concatenation
remote_root + slash + path + suffix. -/
theorem marker_roundtrip (remote_root relative_file : PyStr)
    (h : remote_root.getLast? ≠ some '/') :
    collect_rel remote_root (marker_path remote_root relative_file) = relative_file := by
  have hr : pyRstripSlash remote_root = remote_root := by
    rcases List.eq_nil_or_concat remote_root with h0 | ⟨ys, y, h0⟩
    · subst h0; rfl
    · subst h0
      have hy : ¬ (y = '/') := by
        intro he
        exact h (by simp [List.concat_eq_append, List.getLast?_concat, he])
      unfold pyRstripSlash
      simp [List.concat_eq_append, List.dropWhile_cons, hy]
  have hsplit : marker_path remote_root relative_file
      = (remote_root ++ ['/']) ++ (relative_file ++ markerExt) := by
    simp [marker_path]
  unfold collect_rel
  rw [hr, hsplit]
  have hpre : (remote_root ++ ['/']).isPrefixOf
      ((remote_root ++ ['/']) ++ (relative_file ++ markerExt)) = true := by
    rw [List.isPrefixOf_iff_prefix]
    exact List.prefix_append _ _
  simp only [hpre, if_true]
  rw [List.drop_left]
  have hlen : (relative_file ++ markerExt).length - markerExt.length
      = relative_file.length := by
    simp [List.length_append]
  rw [hlen, List.take_left]

/-- C3 witness: the round trip evaluated on a concrete root and relative
path. -/
theorem marker_roundtrip_witness :
    collect_rel ("srv/backup".data)
        (marker_path ("srv/backup".data) ("docs/a.txt".data))
      = "docs/a.txt".data :=
  marker_roundtrip ("srv/backup".data) ("docs/a.txt".data) (by decide)

/-- C9: snapshot content invariant: the stored list is sorted, and every
stored path comes from the enumeration of relative paths under the local
root, has no _papelera component, does not end in the deletion-marker
suffix (its final component, hence the whole path, lacks the suffix, which
contains no separator) and has no file name starting with the control
file name start .rsyncx_. -/
theorem snapshot_content_invariant (ts : String) (rootParts tree : List String) :
    List.Sorted (· ≤ ·)
      (write_state ts (list_current_local_files rootParts tree).toFinset).files
    ∧ ∀ p ∈ (write_state ts (list_current_local_files rootParts tree).toFinset).files,
        p ∈ tree
        ∧ "_papelera" ∉ pathParts p
        ∧ pyEndsWith (pathName p) DELETED_MARKER_EXT = false
        ∧ pyStartsWith (pathName p) ".rsyncx_" = false := by
  constructor
  · show List.Sorted (· ≤ ·)
      (Finset.sort (fun a b : String => a ≤ b)
        (list_current_local_files rootParts tree).toFinset)
    exact Finset.sort_sorted _ _
  · intro p hp
    have hp2 : p ∈ Finset.sort (fun a b : String => a ≤ b)
        (list_current_local_files rootParts tree).toFinset := hp
    rw [Finset.mem_sort (fun a b : String => a ≤ b), List.mem_toFinset] at hp2
    rw [list_current_local_files, List.mem_filter] at hp2
    obtain ⟨htree, hkeep⟩ := hp2
    rw [keep_local_file, Bool.and_eq_true, Bool.and_eq_true] at hkeep
    obtain ⟨⟨hcon, hext⟩, hctl⟩ := hkeep
    rw [Bool.not_eq_true'] at hcon hext hctl
    refine ⟨htree, ?_, hext, hctl⟩
    intro hmem2
    have hc : (rootParts ++ pathParts p).contains "_papelera" = true :=
      List.elem_eq_true_of_mem (List.mem_append_right _ hmem2)
    rw [hc] at hcon
    exact Bool.noConfusion hcon

/-- C9 witness: the invariant evaluated on a concrete tree holding one
regular file, one trashed file, one marker and one control file. -/
theorem snapshot_content_invariant_witness :
    ("docs/a.txt" ∈ (write_state "t"
        (list_current_local_files ["home", "me", "sync"]
          ["docs/a.txt", "_papelera/x.txt", "note.txt.rsyncx_deleted",
           ".rsyncx_state.json"]).toFinset).files)
    ∧ ("docs/a.txt" ∈ ["docs/a.txt", "_papelera/x.txt", "note.txt.rsyncx_deleted",
          ".rsyncx_state.json"]
        ∧ "_papelera" ∉ pathParts "docs/a.txt"
        ∧ pyEndsWith (pathName "docs/a.txt") DELETED_MARKER_EXT = false
        ∧ pyStartsWith (pathName "docs/a.txt") ".rsyncx_" = false) :=
  have hmem : "docs/a.txt" ∈ (write_state "t"
      (list_current_local_files ["home", "me", "sync"]
        ["docs/a.txt", "_papelera/x.txt", "note.txt.rsyncx_deleted",
         ".rsyncx_state.json"]).toFinset).files := by
    show "docs/a.txt" ∈ Finset.sort (fun a b : String => a ≤ b)
      (list_current_local_files ["home", "me", "sync"]
        ["docs/a.txt", "_papelera/x.txt", "note.txt.rsyncx_deleted",
         ".rsyncx_state.json"]).toFinset
    rw [Finset.mem_sort (fun a b : String => a ≤ b), List.mem_toFinset]
    decide
  ⟨hmem,
   (snapshot_content_invariant "t" ["home", "me", "sync"]
      ["docs/a.txt", "_papelera/x.txt", "note.txt.rsyncx_deleted",
       ".rsyncx_state.json"]).2 "docs/a.txt" hmem⟩

/-- Accumulator-generalised description of the loop inside
apply_deletion_markers_locally, for a duplicate-free list of marker
paths: the live set loses the listed paths, the trash gains the
destination of every listed path that existed, and the counter advances
by the number of listed paths that existed. -/
theorem apply_markers_foldl (ts : String) (rel_files : List String) :
    ∀ (files trash : Finset String) (n : Nat), rel_files.Nodup →
      List.foldl
        (fun st rel =>
          if rel ∈ st.1 then
            (st.1.erase rel, insert (move_to_trash_dest rel ts) st.2.1, st.2.2 + 1)
          else st)
        (files, trash, n) rel_files
      = (files \ rel_files.toFinset,
         trash ∪ ((rel_files.filter (fun rel => decide (rel ∈ files))).map
             (fun rel => move_to_trash_dest rel ts)).toFinset,
         n + (rel_files.filter (fun rel => decide (rel ∈ files))).length) := by
  induction rel_files with
  | nil =>
    intro files trash n _
    simp
  | cons rel rest ih =>
    intro files trash n hnd
    obtain ⟨hnotin, hndr⟩ := List.nodup_cons.mp hnd
    by_cases hmem : rel ∈ files
    · rw [List.foldl_cons]
      simp only [hmem, if_true]
      rw [ih (files.erase rel) (insert (move_to_trash_dest rel ts) trash) (n + 1) hndr]
      have hfilter : rest.filter (fun x => decide (x ∈ files.erase rel))
          = rest.filter (fun x => decide (x ∈ files)) := by
        apply List.filter_congr
        intro x hx
        have hxne : x ≠ rel := fun he => hnotin (he ▸ hx)
        simp [Finset.mem_erase, hxne]
      rw [hfilter]
      have hfc : (rel :: rest).filter (fun x => decide (x ∈ files))
          = rel :: rest.filter (fun x => decide (x ∈ files)) := by
        simp [List.filter_cons, hmem]
      rw [hfc]
      have h1 : files \ (rel :: rest).toFinset = files.erase rel \ rest.toFinset := by
        ext x
        simp only [Finset.mem_sdiff, Finset.mem_erase, List.toFinset_cons,
          Finset.mem_insert, List.mem_toFinset]
        tauto
      have h2 : trash ∪ ((rel :: rest.filter (fun x => decide (x ∈ files))).map
            (fun r => move_to_trash_dest r ts)).toFinset
          = insert (move_to_trash_dest rel ts) trash
            ∪ ((rest.filter (fun x => decide (x ∈ files))).map
                (fun r => move_to_trash_dest r ts)).toFinset := by
        simp only [List.map_cons, List.toFinset_cons]
        ext x
        simp only [Finset.mem_union, Finset.mem_insert]
        tauto
      have h3 : n + (rel :: rest.filter (fun x => decide (x ∈ files))).length
          = (n + 1) + (rest.filter (fun x => decide (x ∈ files))).length := by
        rw [List.length_cons]
        omega
      rw [h1, h2, h3]
    · rw [List.foldl_cons]
      simp only [hmem, if_false]
      rw [ih files trash n hndr]
      have hfc : (rel :: rest).filter (fun x => decide (x ∈ files))
          = rest.filter (fun x => decide (x ∈ files)) := by
        simp [List.filter_cons, hmem]
      rw [hfc]
      have h1 : files \ (rel :: rest).toFinset = files \ rest.toFinset := by
        ext x
        simp only [Finset.mem_sdiff, List.toFinset_cons, Finset.mem_insert,
          List.mem_toFinset]
        constructor
        · rintro ⟨hxf, hor⟩
          exact ⟨hxf, fun hx => hor (Or.inr hx)⟩
        · rintro ⟨hxf, hxr⟩
          refine ⟨hxf, ?_⟩
          rintro (rfl | hx)
          · exact hmem hxf
          · exact hxr hx
      rw [h1]

/-- C6: move-to-trash semantics of apply_deletion_markers_locally on a
duplicate-free marker list: the returned count is exactly the number of
listed paths whose source file existed, each such path is moved out of
the live set into the trash at _papelera / parent / stem _ timestamp
suffix, and a path with no existing source changes nothing. -/
theorem move_to_trash_semantics (ts : String) (files trash : Finset String)
    (rel_files : List String) (hnd : rel_files.Nodup) :
    (apply_deletion_markers_locally ts files trash rel_files).2.2
      = (rel_files.filter (fun rel => decide (rel ∈ files))).length
    ∧ (apply_deletion_markers_locally ts files trash rel_files).1
      = files \ rel_files.toFinset
    ∧ (apply_deletion_markers_locally ts files trash rel_files).2.1
      = trash ∪ ((rel_files.filter (fun rel => decide (rel ∈ files))).map
          (fun rel => move_to_trash_dest rel ts)).toFinset
    ∧ ∀ rel ∈ rel_files, rel ∈ files →
        move_to_trash_dest rel ts
          ∈ (apply_deletion_markers_locally ts files trash rel_files).2.1 := by
  have h := apply_markers_foldl ts rel_files files trash 0 hnd
  unfold apply_deletion_markers_locally
  rw [h]
  refine ⟨by simp, rfl, rfl, ?_⟩
  intro rel hrel hrelf
  have hrelfl : rel ∈ rel_files.filter (fun x => decide (x ∈ files)) :=
    List.mem_filter.mpr ⟨hrel, by simp [hrelf]⟩
  exact Finset.mem_union_right _
    (List.mem_toFinset.mpr (List.mem_map_of_mem _ hrelfl))

/-- C6 witness: on the live set docs/a.txt, b.txt with markers for
docs/a.txt and missing.txt, exactly one file is moved. -/
theorem move_to_trash_semantics_witness :
    (apply_deletion_markers_locally "20251012_120000"
        {"docs/a.txt", "b.txt"} ∅ ["docs/a.txt", "missing.txt"]).2.2 = 1 := by
  have h := (move_to_trash_semantics "20251012_120000"
      {"docs/a.txt", "b.txt"} ∅ ["docs/a.txt", "missing.txt"] (by decide)).1
  rw [h]
  decide
